import Mathlib

/-!
# Verification of the Rocktick scheduler core

Shallow embedding of the scheduling/dispatch state machine of the Rocktick
job scheduler, together with proofs and refutations of the specification
claims about it.  Each definition is translated from the Rust source file
named in its doc comment; timestamps are modelled as `Int` in the unit named
per component (seconds, milliseconds or microseconds), database rows as Lean
structures, nullable columns as `Option`, and each scheduler `run_once` as a
function from the committed store state to the committed store state (an
early `return` before `tx.commit()` yields the unchanged input state, since
dropping the transaction rolls it back).
-/

namespace Rocktick

/-! ## Cron expander (src/scheduler/cron.rs)

`CronScheduler::run_once` builds the list of fire times to insert by
iterating at most 70 candidate times from the cron iterator and, for each
one, first pushing it onto `times` and only then testing the two break
conditions (`since_now > 15 minutes`, `count > 60`).  Times are in seconds.
-/

/-- The collection loop of `CronScheduler::run_once` (cron.rs lines 116-137):
`count` starts at 0 and is incremented before the element is pushed; after the
push the loop breaks when the element is more than 15 minutes (900 s) ahead of
`now`, or when `count` exceeds 60. -/
def cronLoop (now : Int) : Nat → List Int → List Int
  | _, [] => []
  | count, t :: rest =>
      let count := count + 1
      t :: (if t - now > 900 then []
            else if count > 60 then []
            else cronLoop now count rest)

/-- The scheduled-at values of the rows inserted by one run of the cron
expander for one cron job, given the candidate fire times produced by the
cron iterator (cron.rs caps the iterator with `.take(70)`). -/
def cronTimes (now : Int) (candidates : List Int) : List Int :=
  cronLoop now 0 (candidates.take 70)

/-! ## A stable, kernel-computable sort

`ORDER BY` clauses are modelled with a stable insertion sort (structurally
recursive, so concrete stores evaluate inside the kernel). -/

/-- Insert `a` into a sorted list, before the first element it is `le` to. -/
def orderedInsert (le : α → α → Bool) (a : α) : List α → List α
  | [] => [a]
  | b :: bs => if le a b then a :: b :: bs else b :: orderedInsert le a bs

/-- Stable insertion sort by `le`. -/
def sortByKey (le : α → α → Bool) (l : List α) : List α :=
  l.foldr (orderedInsert le) []

theorem mem_orderedInsert (le : α → α → Bool) (a x : α) (l : List α) :
    x ∈ orderedInsert le a l ↔ x = a ∨ x ∈ l := by
  induction l with
  | nil => simp [orderedInsert]
  | cons b bs ih =>
      unfold orderedInsert
      by_cases h : le a b
      · simp [h]
      · simp only [if_neg h, List.mem_cons, ih]
        tauto

theorem mem_sortByKey (le : α → α → Bool) (x : α) (l : List α) :
    x ∈ sortByKey le l ↔ x ∈ l := by
  induction l with
  | nil => simp [sortByKey]
  | cons b bs ih =>
      unfold sortByKey at *
      simp only [List.foldr_cons, mem_orderedInsert, List.mem_cons, ih]

/-! ## Retry planner (src/scheduler/retries.rs)

`schedule_retry_job` picks a failed, non-workflow scheduled job with retry
budget left and no successor, counts `attempts_made` with a recursive CTE,
and inserts the successor row.  Times are in milliseconds. -/

/-- A `scheduled_jobs` row, restricted to the columns the retry planner
reads and writes. -/
structure RetryJobRow where
  id : String
  region : String
  one_off_job_id : Option String
  cron_job_id : Option String
  workflow_id : Option String
  retry_for_id : Option String
  tenant_id : Option String
  request_id : String
  timeout_ms : Option Int
  max_retries : Int
  max_response_bytes : Option Int
  scheduled_at : Int
  execution_id : Option String
  deriving DecidableEq, Repr

/-- A `job_executions` row, restricted to what the retry planner joins on. -/
structure JobExecutionRow where
  id : String
  success : Bool
  executed_at : Int
  deriving DecidableEq, Repr

/-- The store state the retry planner operates on. -/
structure RetryStore where
  jobs : List RetryJobRow
  executions : List JobExecutionRow
  deriving DecidableEq, Repr

/-- The candidate filter of the planner's first query: the job has an
execution with `success = false`, `max_retries > 0`, is not part of a
workflow, and no other scheduled row has `retry_for_id = job.id`. -/
def retryCandidate (st : RetryStore) (j : RetryJobRow) (e : JobExecutionRow) : Prop :=
  j.execution_id = some e.id ∧ e.success = false ∧ j.max_retries > 0 ∧
    j.workflow_id = none ∧ ¬ ∃ p ∈ st.jobs, p.retry_for_id = some j.id

instance (st : RetryStore) (j : RetryJobRow) (e : JobExecutionRow) :
    Decidable (retryCandidate st j e) := by
  unfold retryCandidate; infer_instance

/-- The recursive CTE `retry_chain` of retries.rs: starting from the row with
the given id at depth 0, it repeatedly joins rows `s` with
`s.retry_for_id = r.id` — i.e. it walks the chain towards SUCCESSORS of the
picked job — and the planner takes `COALESCE(MAX(attempts_made), 0)`.
`fuel` bounds the recursion by the store size. -/
def attemptsCTE (jobs : List RetryJobRow) : Nat → String → Nat
  | 0, _ => 0
  | fuel + 1, i =>
      (jobs.filter (fun s => s.retry_for_id = some i)).foldl
        (fun acc s => max acc (1 + attemptsCTE jobs fuel s.id)) 0

/-- `base_delay_ms` of retries.rs. -/
def base_delay_ms : Nat := 60 * 1000

/-- `wait_time` of retries.rs: `base_delay_ms * (2 ^ attempts_made)` where
`^` in Rust is BITWISE XOR, not exponentiation. -/
def wait_time (attempts_made : Nat) : Nat := base_delay_ms * (Nat.xor 2 attempts_made)

/-- The successor row inserted by `schedule_retry_job` for picked job `j`
whose execution is `e`, with the freshly generated id `newId` and `hash`
(retries.rs lines 81-145). -/
def retrySuccessor (st : RetryStore) (j : RetryJobRow) (e : JobExecutionRow)
    (newId : String) : RetryJobRow :=
  let attempts_made := attemptsCTE st.jobs st.jobs.length j.id
  let attempts_remaining := j.max_retries - 1
  let next_time := e.executed_at + (wait_time attempts_made : Int)
  { id := newId
    region := j.region
    one_off_job_id := j.one_off_job_id
    cron_job_id := j.cron_job_id
    workflow_id := none
    retry_for_id := some j.id
    tenant_id := j.tenant_id
    request_id := j.request_id
    timeout_ms := j.timeout_ms
    max_retries := attempts_remaining
    max_response_bytes := j.max_response_bytes
    scheduled_at := next_time
    execution_id := none }

/-- One run of `schedule_retry_job` over the store: pick the first candidate
(`LIMIT 1 FOR UPDATE SKIP LOCKED`, modelled as the first match in row order),
insert its successor, commit.  If no candidate matches, the store is
unchanged. -/
def retryRunOnce (st : RetryStore) (newId : String) : RetryStore :=
  let pick := st.jobs.find? (fun j =>
    decide (∃ e ∈ st.executions, retryCandidate st j e))
  match pick with
  | none => st
  | some j =>
      match st.executions.find? (fun e => decide (retryCandidate st j e)) with
      | none => st
      | some e => { st with jobs := st.jobs ++ [retrySuccessor st j e newId] }

/-- If the picked job has no successor in the store (which the candidate
filter guarantees), the recursive CTE finds only the job itself, so
`attempts_made` is always 0. -/
theorem attemptsCTE_no_successor (jobs : List RetryJobRow) (fuel : Nat) (i : String)
    (h : ∀ s ∈ jobs, s.retry_for_id ≠ some i) :
    attemptsCTE jobs fuel i = 0 := by
  cases fuel with
  | zero => rfl
  | succ n =>
      unfold attemptsCTE
      have : jobs.filter (fun s => s.retry_for_id = some i) = [] := by
        apply List.filter_eq_nil_iff.mpr
        intro s hs
        simpa using h s hs
      rw [this]
      rfl

/-- The store of the spec's retry scenario: one failed one-off scheduled job
`a` with `max_retries = 3` and no prior retries, whose execution `e1` failed
at `executed_at = 1000` ms (t = 1 s). -/
def c2Store : RetryStore :=
  { jobs := [{ id := "a", region := "us", one_off_job_id := some "oo"
               cron_job_id := none, workflow_id := none, retry_for_id := none
               tenant_id := none, request_id := "r1", timeout_ms := none
               max_retries := 3, max_response_bytes := none
               scheduled_at := 0, execution_id := some "e1" }]
    executions := [{ id := "e1", success := false, executed_at := 1000 }] }

/-- C2: the retry planner run on `c2Store` inserts the successor of job `a`
at `scheduled_at = 121000` ms = `executed_at + 60 s * (2 XOR 0)`, not at the
`61000` ms = `executed_at + 60 s * 2 ^ 0` the claim states: `^` in
retries.rs is Rust's bitwise-xor operator, and the recursive CTE counts
successors of the picked job (of which the candidate filter guarantees there
are none), so `attempts_made` is 0 and every retry is delayed by 120 s. -/
theorem retry_backoff_is_xor_not_pow :
    ((retryRunOnce c2Store "b").jobs.filter
        (fun j => j.retry_for_id = some "a")).map (fun j => j.scheduled_at)
      = [121000] ∧ (121000 : Int) ≠ 1000 + 60000 * 2 ^ (0 : Nat) := by
  constructor
  · rfl
  · decide

/-- Candidate fire times for the cron counterexample: 61 instants, all within
the 15-minute horizon (a `* * * * * *` every-second cron). -/
def c3Candidates : List Int := (List.range 61).map (fun n => (n : Int))

/-- C3 counterexample: the claim fails at concrete inputs.  With 61 candidate
times all inside the horizon the loop inserts 61 rows (the count check runs
only after the push), and with a single candidate 1000 s ahead the loop
inserts it even though it is beyond `now + 900` s (the horizon check also
runs only after the push). -/
theorem cron_claim_counterexample :
    ¬ ((cronTimes 0 c3Candidates).length ≤ 60 ∧
        ∀ t ∈ cronTimes 0 c3Candidates, t ≤ 0 + 900) ∧
    ¬ ((cronTimes 0 [1000]).length ≤ 60 ∧
        ∀ t ∈ cronTimes 0 [1000], t ≤ 0 + 900) := by
  constructor
  · intro h
    have := h.1
    revert this
    decide
  · intro h
    have := h.2 1000 (by decide)
    omega

theorem cronLoop_length_le (now : Int) :
    ∀ (l : List Int) (count : Nat), count ≤ 60 →
      (cronLoop now count l).length ≤ 61 - count := by
  intro l
  induction l with
  | nil => intro count _; simp [cronLoop]
  | cons t rest ih =>
      intro count hc
      unfold cronLoop
      by_cases h1 : t - now > 900
      · simp [h1]; omega
      · by_cases h2 : count + 1 > 60
        · simp [h1, h2]; omega
        · have hc' : count + 1 ≤ 60 := by omega
          have := ih (count + 1) hc'
          simp only [if_neg h1, if_neg h2, List.length_cons]
          omega

theorem cronLoop_dropLast_in_horizon (now : Int) :
    ∀ (l : List Int) (count : Nat),
      ∀ t ∈ (cronLoop now count l).dropLast, t - now ≤ 900 := by
  intro l
  induction l with
  | nil => intro count t ht; simp [cronLoop] at ht
  | cons x rest ih =>
      intro count t ht
      unfold cronLoop at ht
      by_cases h1 : x - now > 900
      · simp [h1] at ht
      · by_cases h2 : count + 1 > 60
        · simp [h1, h2] at ht
        · simp only [if_neg h1, if_neg h2] at ht
          rcases hcl : cronLoop now (count + 1) rest with _ | ⟨y, ys⟩
          · rw [hcl] at ht; simp at ht
          · rw [hcl] at ht
            rw [List.dropLast_cons_of_ne_nil (by simp)] at ht
            rcases List.mem_cons.mp ht with h | h
            · omega
            · have := ih (count + 1) t (by rw [hcl]; exact h)
              exact this

/-- C3 (amended): one run of the cron expander over one cron job inserts at
most 61 `scheduled_jobs` rows, and every inserted row except possibly the
last has `scheduled_at` at most 15 minutes (900 s) after the time of
expansion; only the final inserted row may lie beyond the horizon (the first
candidate past the horizon is pushed before the break fires). -/
theorem cron_backlog_bounded (now : Int) (candidates : List Int) :
    (cronTimes now candidates).length ≤ 61 ∧
      ∀ t ∈ (cronTimes now candidates).dropLast, t - now ≤ 900 := by
  constructor
  · have := cronLoop_length_le now (candidates.take 70) 0 (by omega)
    simpa [cronTimes] using this
  · exact cronLoop_dropLast_in_horizon now (candidates.take 70) 0

/-! ## Request signing (src/signing.rs)

`SignatureBuilder::signature_header` builds the `Rocktick-Signature` header
value.  The HMAC-SHA256 primitive comes from the external `hmac`/`sha2`
crates and is modelled as a parameter `hmac : String → String → List Nat`
(key and message to digest bytes); `url::Url::parse(..).path()` is likewise
external and modelled as a parameter `pathOf : String → String`.  The JSON
object `{"t": .., "p": .., "v1": ..}` is modelled as the record of its three
fields. -/

/-- One hex digit of `hex::encode`, lowercase: 0-9 then a-f. -/
def hexDigit (n : Nat) : Char :=
  if n < 10 then Char.ofNat (48 + n) else Char.ofNat (87 + n)

/-- `hex::encode`: each byte becomes its high then low lowercase hex digit. -/
def hexEncode (bytes : List Nat) : String :=
  String.mk (bytes.flatMap (fun b => [hexDigit (b / 16 % 16), hexDigit (b % 16)]))

/-- The JSON object returned by `signature_header`, as its field record. -/
structure SignatureHeader where
  t : Int
  p : String
  v1 : String
  deriving DecidableEq, Repr

/-- `SignatureBuilder::signature_header` (signing.rs lines 17-44): the
message is built by successive `push_str` of `".{t}"`, `".{path}"` and, when
a body is present, `".{body}"`; `v1` is the lowercase hex encoding of the
HMAC-SHA256 of the message under the signing key. -/
def signature_header (hmac : String → String → List Nat) (pathOf : String → String)
    (signing_key : String) (time : Int) (url : String) (body : Option String) :
    SignatureHeader :=
  let scheduled_at := time
  let pathname := pathOf url
  let message := ""
  let message := message ++ "." ++ toString scheduled_at
  let message := message ++ "." ++ pathname
  let message := match body with
    | some b => message ++ "." ++ b
    | none => message
  { t := scheduled_at, p := pathname, v1 := hexEncode (hmac signing_key message) }

/-- The header the spec describes, stated from the spec's words: fields
`t`, `p`, and `v1` = lowercase hex of the HMAC over
`"." + t + "." + p (+ "." + body)?`. -/
def signatureHeaderSpec (hmac : String → String → List Nat)
    (s : String) (t : Int) (p : String) (body : Option String) : SignatureHeader :=
  { t := t
    p := p
    v1 := hexEncode (hmac s ("." ++ toString t ++ "." ++ p ++
      (match body with | some b => "." ++ b | none => ""))) }

/-- The sixteen lowercase hex characters. -/
def lowerHexChars : List Char := "0123456789abcdef".toList

theorem hexDigit_mem_lowerHex (n : Nat) (h : n < 16) : hexDigit n ∈ lowerHexChars := by
  interval_cases n <;> decide

/-- C8: for every signing key, unix-seconds time, URL and optional body, the
signature header builder returns the JSON object with field `t` the time,
`p` the URL's path, and `v1` the lowercase hex encoding of the HMAC-SHA256
(for any digest function, here a parameter) over the message
`"." + t + "." + path` extended with `"." + body` when a body is present;
moreover every character of `v1` is a lowercase hex digit. -/
theorem signature_header_correct (hmac : String → String → List Nat)
    (pathOf : String → String) (s : String) (t : Int) (url : String)
    (body : Option String) (p : String) (hp : pathOf url = p) :
    signature_header hmac pathOf s t url body = signatureHeaderSpec hmac s t p body ∧
      ∀ c ∈ (signature_header hmac pathOf s t url body).v1.toList, c ∈ lowerHexChars := by
  constructor
  · simp only [signature_header, signatureHeaderSpec, hp]
    cases body <;> simp [String.append_assoc]
  · intro c hc
    simp only [signature_header, hexEncode, String.toList] at hc
    rcases List.mem_flatMap.mp hc with ⟨b, _, hb⟩
    simp only [List.mem_cons, List.not_mem_nil, or_false] at hb
    rcases hb with h | h
    · exact h ▸ hexDigit_mem_lowerHex _ (Nat.mod_lt _ (by omega))
    · exact h ▸ hexDigit_mem_lowerHex _ (Nat.mod_lt _ (by omega))

/-- A fixed digest function for the C8 witness. -/
def witnessHmac : String → String → List Nat := fun _ _ => [0, 255]

/-- A fixed path extractor for the C8 witness, matching the spec's signed
dispatch scenario (`https://x.test/hook` has path `/hook`). -/
def witnessPathOf : String → String := fun _ => "/hook"

/-- Witness for C8 at the spec's scenario: key `"S"`, t = 100, URL
`https://x.test/hook`, body `"hi"`. -/
theorem signature_header_correct_witness :
    signature_header witnessHmac witnessPathOf "S" 100 "https://x.test/hook" (some "hi")
      = signatureHeaderSpec witnessHmac "S" 100 "/hook" (some "hi") :=
  (signature_header_correct witnessHmac witnessPathOf "S" 100 "https://x.test/hook"
    (some "hi") "/hook" rfl).1

/-! ## Tenant token refill (src/scheduler/tenants/tokens.rs)

`TenantTokenScheduler::run_once` picks one tenant with
`next_increment < now AND tokens < max_tokens`, sets
`tokens = min(tokens + increment, max_tokens)` and pushes `next_increment`
per the three cases of the source.  Time is in microseconds so that chrono's
`TimeDelta` comparisons are exact; 5 minutes = 300000000 µs, one day =
86400000000 µs. -/

/-- A `tenants` row, restricted to the columns the token machinery touches.
`period` is a Postgres interval, stored as days + microseconds. -/
structure Tenant where
  id : String
  tokens : Int
  max_tokens : Int
  increment : Int
  period_days : Int
  period_micros : Int
  next_increment : Int
  max_timeout : Option Int
  deriving DecidableEq, Repr

/-- The token invariant of the spec: `0 ≤ tokens ≤ max_tokens`. -/
def tokensInv (t : Tenant) : Prop := 0 ≤ t.tokens ∧ t.tokens ≤ t.max_tokens

instance (t : Tenant) : Decidable (tokensInv t) := by unfold tokensInv; infer_instance

/-- The effect of one `TenantTokenScheduler::run_once` on a selected tenant
(tokens.rs lines 16-68); the candidate filter of the `SELECT` is part of the
guard, and a non-matching tenant is untouched. -/
def refillTenant (now : Int) (t : Tenant) : Tenant :=
  if t.next_increment < now ∧ t.tokens < t.max_tokens then
    let new_tokens := min (t.tokens + t.increment) t.max_tokens
    let period_time_delta := t.period_days * 86400000000 + t.period_micros
    let time_since_scheduled_increment := now - t.next_increment
    let next_time :=
      if new_tokens = t.max_tokens then now + max 300000000 period_time_delta
      else if time_since_scheduled_increment > 300000000 then now + period_time_delta
      else t.next_increment + period_time_delta
    { t with tokens := new_tokens, next_increment := next_time }
  else t

/-- The token debit of the dispatch loop (broker/job.rs lines 83-94):
`tokens = GREATEST(0, tokens - used_tokens)` where `used_tokens` is the
count of this tenant's freshly leased jobs. -/
def debitTokens (t : Tenant) (used : Nat) : Tenant :=
  { t with tokens := max 0 (t.tokens - used) }

/-- The token refund of the lease reaper (broker/job.rs lines 470-480):
`tokens = LEAST(max_tokens, tokens + refund_tokens)` where `refund_tokens`
is the count of this tenant's reaped leases. -/
def refundTokens (t : Tenant) (n : Nat) : Tenant :=
  { t with tokens := min t.max_tokens (t.tokens + n) }

/-- C9: for every tenant selected by the token refill scheduler
(`next_increment < now` and `tokens < max_tokens`), one run sets `tokens` to
`min(tokens + increment, max_tokens)` and sets `next_increment` to
`now + max(5 min, period)` when the new count saturates, else `now + period`
when the run is more than 5 minutes late, else `next_increment + period`. -/
theorem refill_tenant_correct (now : Int) (t : Tenant)
    (hsel : t.next_increment < now ∧ t.tokens < t.max_tokens) :
    (refillTenant now t).tokens = min (t.tokens + t.increment) t.max_tokens ∧
    (refillTenant now t).next_increment =
      (if min (t.tokens + t.increment) t.max_tokens = t.max_tokens then
        now + max 300000000 (t.period_days * 86400000000 + t.period_micros)
      else if now - t.next_increment > 300000000 then
        now + (t.period_days * 86400000000 + t.period_micros)
      else t.next_increment + (t.period_days * 86400000000 + t.period_micros)) := by
  unfold refillTenant
  rw [if_pos hsel]
  exact ⟨rfl, rfl⟩

/-- Witness for C9: a tenant with `tokens = 1 < max_tokens = 10`,
`increment = 3`, a one-day period, due at `next_increment = 0 < now = 100`. -/
theorem refill_tenant_correct_witness :
    (refillTenant 100 { id := "t1", tokens := 1, max_tokens := 10, increment := 3
                        period_days := 1, period_micros := 0, next_increment := 0
                        max_timeout := none }).tokens = min (1 + 3) 10 ∧
    (refillTenant 100 { id := "t1", tokens := 1, max_tokens := 10, increment := 3
                        period_days := 1, period_micros := 0, next_increment := 0
                        max_timeout := none }).next_increment =
      (if min ((1 : Int) + 3) 10 = 10 then 100 + max 300000000 (1 * 86400000000 + 0)
       else if (100 : Int) - 0 > 300000000 then 100 + (1 * 86400000000 + 0)
       else 0 + (1 * 86400000000 + 0)) :=
  refill_tenant_correct 100
    { id := "t1", tokens := 1, max_tokens := 10, increment := 3
      period_days := 1, period_micros := 0, next_increment := 0
      max_timeout := none } (by constructor <;> decide)

/-! ## Broker: dispatch lease, execution recording, lease reaping
(src/broker/job.rs)

The three mutating operations on `scheduled_jobs`/`tenants`.  `SKIP LOCKED`
nondeterminism is modelled by a predicate `avail : String → Bool` saying
which candidate row ids survive the lock attempt.  Times are in seconds. -/

/-- A `scheduled_jobs` row, restricted to the columns the broker touches. -/
structure SchedJob where
  id : String
  region : String
  tenant_id : Option String
  scheduled_at : Int
  timeout_ms : Option Int
  lock_nonce : Option Int
  execution_id : Option String
  workflow_execution_id : Option String
  times_locked : Int
  request_id : String
  deriving DecidableEq, Repr

/-- An `http_requests` row (headers stored as `"k: v"` strings). -/
structure HttpRequestRow where
  id : String
  method : String
  url : String
  headers : List String
  body : Option String
  deriving DecidableEq, Repr

/-- An `http_responses` row. -/
structure HttpResponseRow where
  id : String
  status : Int
  headers : List String
  body : String
  deriving DecidableEq, Repr

/-- A `job_executions` row as written by the execution recorder. -/
structure ExecutionRecord where
  id : String
  executed_at : Int
  success : Bool
  response_id : Option String
  response_error : Option String
  request_id : String
  deriving DecidableEq, Repr

/-- The store state the broker operates on. -/
structure BrokerState where
  tenants : List Tenant
  jobs : List SchedJob
  requests : List HttpRequestRow
  responses : List HttpResponseRow
  executions : List ExecutionRecord
  deriving DecidableEq, Repr

/-- A row is queued: `lock_nonce IS NULL AND execution_id IS NULL`. -/
def queued (j : SchedJob) : Prop := j.lock_nonce = none ∧ j.execution_id = none

instance (j : SchedJob) : Decidable (queued j) := by unfold queued; infer_instance

/-- The region predicate of the dispatch query (job.rs lines 50-53):
home-region rows due within 3 s, or any-region rows overdue by 5 s. -/
def regionOk (now : Int) (region : String) (j : SchedJob) : Prop :=
  (j.region = region ∧ j.scheduled_at ≤ now + 3) ∨ j.scheduled_at ≤ now - 5

instance (now : Int) (region : String) (j : SchedJob) : Decidable (regionOk now region j) := by
  unfold regionOk; infer_instance

/-- The dispatch ordering `(scheduled_at ASC, id ASC)`. -/
def jobOrder (a b : SchedJob) : Bool :=
  decide (a.scheduled_at < b.scheduled_at ∨ (a.scheduled_at = b.scheduled_at ∧ a.id ≤ b.id))

/-- Per-tenant candidate rows of the dispatch query: the tenant's queued,
region-admissible rows ordered by `(scheduled_at, id)`, capped at `tokens`. -/
def tenantCandidates (st : BrokerState) (now : Int) (region : String) (t : Tenant) :
    List SchedJob :=
  (sortByKey jobOrder (st.jobs.filter (fun j =>
      decide (j.tenant_id = some t.id ∧ queued j ∧ regionOk now region j)))).take
    t.tokens.toNat

/-- Anonymous candidate rows: `tenant_id IS NULL`, same filter and order,
capped at 100 per call. -/
def anonCandidates (st : BrokerState) (now : Int) (region : String) : List SchedJob :=
  (sortByKey jobOrder (st.jobs.filter (fun j =>
      decide (j.tenant_id = none ∧ queued j ∧ regionOk now region j)))).take 100

/-- The `candidate_ids` CTE: tenanted candidates of every active tenant
(`tokens > 0`) followed by the anonymous candidates. -/
def candidateIds (st : BrokerState) (now : Int) (region : String) : List String :=
  (((st.tenants.filter (fun t => decide (t.tokens > 0))).flatMap
      (tenantCandidates st now region)) ++ anonCandidates st now region).map (fun j => j.id)

/-- The `jobs_to_lock` CTE: the candidate ids surviving
`FOR UPDATE SKIP LOCKED` (`avail`). -/
def jobsToLock (st : BrokerState) (now : Int) (region : String)
    (avail : String → Bool) : List String :=
  (candidateIds st now region).filter avail

/-- The rows returned by the `updated_jobs` CTE (only `tenant_id` of the
returned rows is consumed, so pre-update rows serve). -/
def lockedRows (st : BrokerState) (now : Int) (region : String)
    (avail : String → Bool) : List SchedJob :=
  st.jobs.filter (fun j => j.id ∈ jobsToLock st now region avail)

/-- `used_tokens` of the `updated_tenants` CTE: this tenant's count of
freshly leased rows. -/
def usedTokens (st : BrokerState) (now : Int) (region : String)
    (avail : String → Bool) (t : Tenant) : Nat :=
  ((lockedRows st now region avail).filter (fun j => j.tenant_id = some t.id)).length

/-- The atomic dispatch statement of `get_jobs` (job.rs lines 32-129):
select candidates, lease the ones surviving `FOR UPDATE SKIP LOCKED`
(`avail`) by setting `lock_nonce` and bumping `times_locked`, and debit each
tenant that had rows leased by its count of freshly leased rows
(`GROUP BY tenant_id` yields no row, hence no update, for a count of 0). -/
def getJobsLease (now : Int) (region : String) (nonce : Int) (avail : String → Bool)
    (st : BrokerState) : BrokerState :=
  { st with
    jobs := st.jobs.map (fun j =>
      if j.id ∈ jobsToLock st now region avail then
        { j with lock_nonce := some nonce, times_locked := j.times_locked + 1 }
      else j)
    tenants := st.tenants.map (fun t =>
      if usedTokens st now region avail t = 0 then t
      else debitTokens t (usedTokens st now region avail t)) }

/-- A `JobExecution` frame of the `RecordExecution` stream. -/
structure ResponseFrame where
  status : Int
  headers : List (String × String)
  body : String
  deriving DecidableEq, Repr

/-- The drone-reported execution result frame. -/
structure JobExecutionFrame where
  job_id : String
  lock_nonce : Int
  success : Bool
  response : Option ResponseFrame
  response_error : Option String
  req_method : String
  req_url : String
  req_headers : List (String × String)
  req_body : Option String
  executed_at : Int
  deriving DecidableEq, Repr

/-- One frame of `record_execution` (job.rs lines 268-427), processed in its
own transaction; returns the committed state and the acknowledgement sent
(the job id, only on commit success).  `tsValid` models chrono's
`DateTime::from_timestamp_secs` range check, `fallbackNow` the `Utc::now()`
fallback, and `reqId`/`respId`/`execId` the generated ids.  If the
`(job_id, lock_nonce)` lease check matches no row, `fetch_one` fails, the
transaction rolls back before any write, and no ack is sent.  The workflow
side effect (applied between the inserts and the final update when the row
belongs to a workflow execution) writes only workflow tables, which are
modelled separately in the workflow section; it does not touch any table of
`BrokerState`. -/
def recordExecutionFrame (frame : JobExecutionFrame) (reqId respId execId : String)
    (fallbackNow : Int) (tsValid : Int → Bool) (st : BrokerState) :
    BrokerState × Option String :=
  match st.jobs.find? (fun r =>
      decide (r.id = frame.job_id ∧ r.lock_nonce = some frame.lock_nonce)) with
  | none => (st, none)
  | some scheduled =>
      ({ st with
         requests := st.requests ++
           [{ id := reqId, method := frame.req_method, url := frame.req_url
              headers := frame.req_headers.filterMap (fun kv =>
                if kv.1.startsWith "Rocktick-" then none
                else some (kv.1 ++ ": " ++ kv.2))
              body := frame.req_body }]
         responses := match frame.response with
           | some r =>
               st.responses ++
                 [{ id := respId, status := r.status
                    headers := r.headers.map (fun kv => kv.1 ++ ": " ++ kv.2)
                    body := r.body }]
           | none => st.responses
         executions := st.executions ++
           [{ id := execId
              executed_at := if tsValid frame.executed_at then frame.executed_at
                             else fallbackNow
              success := frame.success
              response_id := match frame.response with
                | some _ => some respId
                | none => none
              response_error := frame.response_error
              request_id := reqId }]
         jobs := st.jobs.map (fun j =>
           if j.id = scheduled.id then
             { j with execution_id := some execId, lock_nonce := none }
           else j) },
       some frame.job_id)

/-- The effective timeout of the lease reaper's expiry check:
`COALESCE(job.timeout_ms, tenant.max_timeout, 120000)` (milliseconds),
looking the tenant up by the job's `tenant_id`. -/
def reapTimeoutMs (st : BrokerState) (j : SchedJob) : Int :=
  (j.timeout_ms.orElse (fun _ =>
    (st.tenants.find? (fun t => decide (some t.id = j.tenant_id))).bind
      (fun t => t.max_timeout))).getD 120000

/-- The reaper's candidate filter (job.rs lines 443-456): leased
(`lock_nonce IS NOT NULL`), unexecuted (`execution_id IS NULL`), and
`to_timestamp(lock_nonce) + timeout/1000 s + 90 s < now`. -/
def reapExpired (st : BrokerState) (now : Int) (j : SchedJob) : Bool :=
  match j.lock_nonce with
  | none => false
  | some n =>
      decide (j.execution_id = none) && decide (n + reapTimeoutMs st j / 1000 + 90 < now)

/-- The `locked_candidates` CTE of the reaper: expired leases surviving
`SKIP LOCKED` (`avail`). -/
def reapCands (now : Int) (avail : String → Bool) (st : BrokerState) : List SchedJob :=
  st.jobs.filter (fun j => reapExpired st now j && avail j.id)

/-- `refund_tokens` of the reaper: this tenant's count of reaped rows. -/
def refundCount (now : Int) (avail : String → Bool) (st : BrokerState) (t : Tenant) : Nat :=
  ((reapCands now avail st).filter (fun j => j.tenant_id = some t.id)).length

/-- One statement of `run_job_cleanup_loop` (job.rs lines 441-483): clear the
`lock_nonce` of every expired lease surviving `SKIP LOCKED` (`avail`) and
refund each tenant that had rows reaped by its count of reaped rows
(`GROUP BY tenant_id` yields no row, hence no update, for a count of 0). -/
def reapLeases (now : Int) (avail : String → Bool) (st : BrokerState) : BrokerState :=
  { st with
    jobs := st.jobs.map (fun j =>
      if j.id ∈ (reapCands now avail st).map (fun c => c.id) then
        { j with lock_nonce := none }
      else j)
    tenants := st.tenants.map (fun t =>
      if refundCount now avail st t = 0 then t
      else refundTokens t (refundCount now avail st t)) }

/-- The `scheduled_jobs` state invariant: never leased and executed at once —
`(lock_nonce, execution_id)` is never `(NOT NULL, NOT NULL)`. -/
def jobStateInv (j : SchedJob) : Prop := j.lock_nonce = none ∨ j.execution_id = none

/-- The invariant over the whole store. -/
def brokerJobsInv (st : BrokerState) : Prop := ∀ j ∈ st.jobs, jobStateInv j

theorem mem_candidateIds (st : BrokerState) (now : Int) (region : String)
    (i : String) (hi : i ∈ candidateIds st now region) :
    ∃ c ∈ st.jobs, queued c ∧ c.id = i := by
  unfold candidateIds at hi
  rcases List.mem_map.mp hi with ⟨j, hj, rfl⟩
  rcases List.mem_append.mp hj with h | h
  · rcases List.mem_flatMap.mp h with ⟨t, _, hjt⟩
    unfold tenantCandidates at hjt
    have hj' := (mem_sortByKey jobOrder j _).mp (List.mem_of_mem_take hjt)
    have hmem := List.mem_filter.mp hj'
    exact ⟨j, hmem.1, (of_decide_eq_true hmem.2).2.1, rfl⟩
  · unfold anonCandidates at h
    have hj' := (mem_sortByKey jobOrder j _).mp (List.mem_of_mem_take h)
    have hmem := List.mem_filter.mp hj'
    exact ⟨j, hmem.1, (of_decide_eq_true hmem.2).2.1, rfl⟩

theorem getJobsLease_preserves_inv (now : Int) (region : String) (nonce : Int)
    (avail : String → Bool) (st : BrokerState) (hinv : brokerJobsInv st)
    (hnodup : (st.jobs.map (fun j => j.id)).Nodup) :
    brokerJobsInv (getJobsLease now region nonce avail st) := by
  intro j' hj'
  unfold getJobsLease at hj'
  rcases List.mem_map.mp hj' with ⟨j, hj, rfl⟩
  by_cases hl : j.id ∈ jobsToLock st now region avail
  · rw [if_pos hl]
    have hic : j.id ∈ candidateIds st now region := by
      unfold jobsToLock at hl
      exact (List.mem_filter.mp hl).1
    rcases mem_candidateIds st now region j.id hic with ⟨c, hc, hq, hcid⟩
    have : c = j := List.inj_on_of_nodup_map hnodup hc hj hcid
    subst this
    exact Or.inr hq.2
  · rw [if_neg hl]
    exact hinv j hj

theorem recordExecutionFrame_preserves_inv (frame : JobExecutionFrame)
    (reqId respId execId : String) (fallbackNow : Int) (tsValid : Int → Bool)
    (st : BrokerState) (hinv : brokerJobsInv st) :
    brokerJobsInv (recordExecutionFrame frame reqId respId execId fallbackNow tsValid st).1 := by
  unfold recordExecutionFrame
  rcases hfind : st.jobs.find? (fun r =>
      decide (r.id = frame.job_id ∧ r.lock_nonce = some frame.lock_nonce)) with _ | scheduled
  · rw [hfind]
    exact hinv
  · rw [hfind]
    intro j' hj'
    rcases List.mem_map.mp hj' with ⟨j, hj, rfl⟩
    by_cases hid : j.id = scheduled.id
    · rw [if_pos hid]; exact Or.inl rfl
    · rw [if_neg hid]; exact hinv j hj

theorem reapLeases_preserves_inv (now : Int) (avail : String → Bool)
    (st : BrokerState) (hinv : brokerJobsInv st) :
    brokerJobsInv (reapLeases now avail st) := by
  intro j' hj'
  unfold reapLeases at hj'
  rcases List.mem_map.mp hj' with ⟨j, hj, rfl⟩
  by_cases hl : j.id ∈ (reapCands now avail st).map (fun c => c.id)
  · rw [if_pos hl]; exact Or.inl rfl
  · rw [if_neg hl]; exact hinv j hj

/-- C5: the broker's three mutating operations on `scheduled_jobs` — the
dispatch lease, one execution-recording frame, and the lease reaper — each
preserve the state invariant that no row has both `lock_nonce` and
`execution_id` non-null: the lease step selects only rows with both null,
the recorder sets `execution_id` and clears `lock_nonce` in the same update,
and the reaper only clears `lock_nonce`.  (`hnodup` is the primary-key
uniqueness of `scheduled_jobs.id`.) -/
theorem scheduled_jobs_never_locked_and_executed
    (st : BrokerState) (now : Int) (region : String) (nonce : Int)
    (avail : String → Bool) (frame : JobExecutionFrame)
    (reqId respId execId : String) (fallbackNow : Int) (tsValid : Int → Bool)
    (hinv : brokerJobsInv st) (hnodup : (st.jobs.map (fun j => j.id)).Nodup) :
    brokerJobsInv (getJobsLease now region nonce avail st) ∧
    brokerJobsInv (recordExecutionFrame frame reqId respId execId fallbackNow tsValid st).1 ∧
    brokerJobsInv (reapLeases now avail st) :=
  ⟨getJobsLease_preserves_inv now region nonce avail st hinv hnodup,
   recordExecutionFrame_preserves_inv frame reqId respId execId fallbackNow tsValid st hinv,
   reapLeases_preserves_inv now avail st hinv⟩

/-- A concrete broker store for the C5/C6 witnesses: one active tenant and
one queued, one leased job. -/
def witnessBrokerState : BrokerState :=
  { tenants := [{ id := "t1", tokens := 2, max_tokens := 2, increment := 1
                  period_days := 0, period_micros := 60000000, next_increment := 0
                  max_timeout := none }]
    jobs := [{ id := "j1", region := "us", tenant_id := some "t1", scheduled_at := 0
               timeout_ms := some 1000, lock_nonce := none, execution_id := none
               workflow_execution_id := none, times_locked := 0, request_id := "r1" },
             { id := "j2", region := "us", tenant_id := some "t1", scheduled_at := 0
               timeout_ms := some 1000, lock_nonce := some 10, execution_id := none
               workflow_execution_id := none, times_locked := 1, request_id := "r2" }]
    requests := []
    responses := []
    executions := [] }

/-- A concrete drone result frame for the broker witnesses. -/
def witnessFrame : JobExecutionFrame :=
  { job_id := "j2", lock_nonce := 10, success := true
    response := some { status := 200, headers := [("Server", "x")], body := "ok" }
    response_error := none, req_method := "POST", req_url := "https://x.test/hook"
    req_headers := [("A", "b")], req_body := some "hi", executed_at := 11 }

/-- Witness for C5 at `witnessBrokerState`. -/
theorem scheduled_jobs_never_locked_and_executed_witness :
    brokerJobsInv (getJobsLease 100 "us" 100 (fun _ => true) witnessBrokerState) ∧
    brokerJobsInv (recordExecutionFrame witnessFrame "rq" "rs" "ex" 11
      (fun _ => true) witnessBrokerState).1 ∧
    brokerJobsInv (reapLeases 100 (fun _ => true) witnessBrokerState) :=
  scheduled_jobs_never_locked_and_executed witnessBrokerState 100 "us" 100
    (fun _ => true) witnessFrame "rq" "rs" "ex" 11 (fun _ => true)
    (by intro j hj; fin_cases hj <;> simp [jobStateInv])
    (by decide)

theorem tokensInv_debit (t : Tenant) (used : Nat) (h : tokensInv t) :
    tokensInv (debitTokens t used) := by
  unfold tokensInv debitTokens at *
  constructor
  · exact le_max_left 0 _
  · have hu : (0 : Int) ≤ (used : Int) := Int.natCast_nonneg _
    apply max_le (le_trans h.1 h.2)
    omega

theorem tokensInv_refund (t : Tenant) (n : Nat) (h : tokensInv t) :
    tokensInv (refundTokens t n) := by
  unfold tokensInv refundTokens at *
  have hn : (0 : Int) ≤ (n : Int) := Int.natCast_nonneg _
  constructor
  · apply le_min (le_trans h.1 h.2)
    omega
  · exact min_le_left _ _

theorem tokensInv_refill (now : Int) (t : Tenant) (hinc : 0 ≤ t.increment)
    (h : tokensInv t) : tokensInv (refillTenant now t) := by
  unfold refillTenant
  by_cases hsel : t.next_increment < now ∧ t.tokens < t.max_tokens
  · rw [if_pos hsel]
    unfold tokensInv at *
    constructor
    · simp only
      apply le_min _ (le_trans h.1 h.2)
      omega
    · exact min_le_right _ _
  · rw [if_neg hsel]; exact h

/-- A tenant with a negative refill `increment`, as the API produces it:
`compute_incr_and_period` (api/tenants.rs) applies no sign check to the
caller-supplied `tok_per_day`, so `tok_per_day = -10000` gives
`base_period = 86400000 / -10000 = -8640` ms and
`increment = ceil(60000 / -8640) = -6`; `update_tenant` can combine this
with a token count inside `[0, max_tokens]`. -/
def c6Tenant : Tenant :=
  { id := "t-neg", tokens := 1, max_tokens := 10, increment := -6
    period_days := 0, period_micros := 60000000, next_increment := 0
    max_timeout := none }

/-- C6 counterexample: the token refill does NOT preserve
`0 ≤ tokens ≤ max_tokens` for every tenant.  `c6Tenant` satisfies the
invariant and the refill candidate filter (`next_increment < now`,
`tokens < max_tokens`), yet one run commits
`tokens = min(1 + (-6), 10) = -5 < 0`. -/
theorem refill_negative_increment_breaks_invariant :
    tokensInv c6Tenant ∧
    c6Tenant.next_increment < 100 ∧ c6Tenant.tokens < c6Tenant.max_tokens ∧
    (refillTenant 100 c6Tenant).tokens = -5 ∧
    ¬ tokensInv (refillTenant 100 c6Tenant) := by
  refine ⟨?_, ?_, ?_, ?_, ?_⟩ <;> decide

/-- C6 (amended): the dispatch loop's per-tenant debit and the lease
reaper's per-tenant refund preserve `0 ≤ tokens ≤ max_tokens` whenever the
invariant held before; the token refill preserves it only for tenants whose
refill `increment` is nonnegative — the API derives a negative `increment`
from a caller-supplied negative `tokens_per_day` without any sign check, and
on such a tenant the refill drives `tokens` below 0
(`refill_negative_increment_breaks_invariant`). -/
theorem tenant_tokens_invariant_preserved
    (t : Tenant) (now : Int) (st : BrokerState) (region : String) (nonce : Int)
    (avail : String → Bool)
    (hinc : 0 ≤ t.increment) (ht : tokensInv t)
    (hall : ∀ u ∈ st.tenants, tokensInv u) :
    tokensInv (refillTenant now t) ∧
    (∀ u ∈ (getJobsLease now region nonce avail st).tenants, tokensInv u) ∧
    (∀ u ∈ (reapLeases now avail st).tenants, tokensInv u) := by
  refine ⟨tokensInv_refill now t hinc ht, ?_, ?_⟩
  · intro u hu
    unfold getJobsLease at hu
    rcases List.mem_map.mp hu with ⟨v, hv, rfl⟩
    by_cases hz : usedTokens st now region avail v = 0
    · rw [if_pos hz]; exact hall v hv
    · rw [if_neg hz]; exact tokensInv_debit v _ (hall v hv)
  · intro u hu
    unfold reapLeases at hu
    rcases List.mem_map.mp hu with ⟨v, hv, rfl⟩
    by_cases hz : refundCount now avail st v = 0
    · rw [if_pos hz]; exact hall v hv
    · rw [if_neg hz]; exact tokensInv_refund v _ (hall v hv)

/-- Witness for C6 (amended) at `witnessBrokerState`'s tenant. -/
theorem tenant_tokens_invariant_preserved_witness :
    tokensInv (refillTenant 100 { id := "t1", tokens := 2, max_tokens := 2, increment := 1
                                  period_days := 0, period_micros := 60000000
                                  next_increment := 0, max_timeout := none }) ∧
    (∀ u ∈ (getJobsLease 100 "us" 100 (fun _ => true) witnessBrokerState).tenants,
      tokensInv u) ∧
    (∀ u ∈ (reapLeases 1000 (fun _ => true) witnessBrokerState).tenants, tokensInv u) :=
  tenant_tokens_invariant_preserved
    { id := "t1", tokens := 2, max_tokens := 2, increment := 1
      period_days := 0, period_micros := 60000000, next_increment := 0
      max_timeout := none } 100 witnessBrokerState "us" 100 (fun _ => true)
    (by decide) (by constructor <;> decide)
    (by intro u hu; fin_cases hu; constructor <;> decide)

/-- C7: execution recording is idempotent and drops unknown leases: when an
incoming frame's `(job_id, lock_nonce)` matches no `scheduled_jobs` row, the
transaction fails before any write, so the store is unchanged and no ack is
sent; and after a successfully recorded frame, replaying the same frame
matches no row (the commit cleared `lock_nonce`), so it is a no-op. -/
theorem record_execution_idempotent
    (frame : JobExecutionFrame) (reqId respId execId : String)
    (fallbackNow : Int) (tsValid : Int → Bool) (st : BrokerState)
    (reqId2 respId2 execId2 : String) (fallbackNow2 : Int) (tsValid2 : Int → Bool) :
    (st.jobs.find? (fun r =>
        decide (r.id = frame.job_id ∧ r.lock_nonce = some frame.lock_nonce)) = none →
      recordExecutionFrame frame reqId respId execId fallbackNow tsValid st = (st, none)) ∧
    (∀ st' a,
      recordExecutionFrame frame reqId respId execId fallbackNow tsValid st = (st', some a) →
      recordExecutionFrame frame reqId2 respId2 execId2 fallbackNow2 tsValid2 st'
        = (st', none)) := by
  constructor
  · intro hnone
    unfold recordExecutionFrame
    rw [hnone]
  · intro st' a hrun
    unfold recordExecutionFrame at hrun
    rcases hfind : st.jobs.find? (fun r =>
        decide (r.id = frame.job_id ∧ r.lock_nonce = some frame.lock_nonce)) with _ | scheduled
    · rw [hfind] at hrun
      exact absurd (congrArg Prod.snd hrun) (by simp)
    · rw [hfind] at hrun
      have hpred' := List.find?_some hfind
      simp only [decide_eq_true_eq] at hpred'
      rw [Prod.mk.injEq] at hrun
      obtain ⟨hst', -⟩ := hrun
      subst hst'
      have hnone2 : (st.jobs.map (fun j =>
          if j.id = scheduled.id then
            { j with execution_id := some execId, lock_nonce := none }
          else j)).find? (fun r =>
            decide (r.id = frame.job_id ∧ r.lock_nonce = some frame.lock_nonce)) = none := by
        apply List.find?_eq_none.mpr
        intro x hx
        rcases List.mem_map.mp hx with ⟨j, hj, rfl⟩
        by_cases hid : j.id = scheduled.id
        · rw [if_pos hid]
          simp
        · rw [if_neg hid]
          simp only [decide_eq_true_eq, not_and]
          intro hjid
          exact absurd (hjid.trans hpred'.1.symm) hid
      unfold recordExecutionFrame
      rw [hnone2]

/-- Witness for C7: on the empty store every frame is dropped with the store
unchanged and no ack, and `witnessFrame` recorded on `witnessBrokerState`
acks once and is a no-op when replayed. -/
theorem record_execution_idempotent_witness :
    recordExecutionFrame witnessFrame "rq" "rs" "ex" 11 (fun _ => true)
      { tenants := [], jobs := [], requests := [], responses := [], executions := [] }
      = ({ tenants := [], jobs := [], requests := [], responses := [], executions := [] },
         none) :=
  (record_execution_idempotent witnessFrame "rq" "rs" "ex" 11 (fun _ => true)
      { tenants := [], jobs := [], requests := [], responses := [], executions := [] }
      "rq2" "rs2" "ex2" 12 (fun _ => true)).1 rfl

/-! ## Dispatch header rewriting (src/broker/job.rs lines 209-224)

`get_jobs` parses the stored request's `"k: v"` header strings into a
`HashMap` (`splitn(2, ":")`, both parts trimmed; lines without a colon are
dropped; later duplicates overwrite earlier ones), then inserts
`Rocktick-Job-Id` and, when a signature was built, `Rocktick-Signature`.
The `HashMap` is modelled as the function from header name to value. -/

/-- Rust's `splitn(2, ":")`: the characters before the first colon and the
characters after it; `none` when the string has no colon (in which case the
source's `parts.next()?` for the value fails and the header is dropped). -/
def splitFirstColon : List Char → Option (List Char × List Char)
  | [] => none
  | c :: rest =>
      if c = ':' then some ([], rest)
      else match splitFirstColon rest with
        | some kv => some (c :: kv.1, kv.2)
        | none => none

/-- Rust's `str::trim`: drop whitespace from both ends. -/
def trimChars (s : List Char) : List Char :=
  ((s.dropWhile Char.isWhitespace).reverse.dropWhile Char.isWhitespace).reverse

/-- One parsed header line: `splitn(2, ":")` with both parts trimmed; `none`
when the line has no colon. -/
def parseHeaderLine (s : String) : Option (String × String) :=
  match splitFirstColon s.toList with
  | none => none
  | some kv => some (String.mk (trimChars kv.1), String.mk (trimChars kv.2))

/-- `HashMap::insert`. -/
def headerInsert (m : String → Option String) (k v : String) : String → Option String :=
  fun q => if q = k then some v else m q

/-- The `HashMap` collected from the stored request's header strings. -/
def storedHeadersMap (stored : List String) : String → Option String :=
  stored.foldl (fun m s =>
    match parseHeaderLine s with
    | some kv => headerInsert m kv.1 kv.2
    | none => m) (fun _ => none)

/-- The outgoing `JobSpec.headers` map: the stored headers with
`Rocktick-Job-Id` inserted and, when the request was signed,
`Rocktick-Signature` inserted. -/
def dispatchHeaders (stored : List String) (jobId : String) (signature : Option String) :
    String → Option String :=
  match signature with
  | some sig =>
      headerInsert (headerInsert (storedHeadersMap stored) "Rocktick-Job-Id" jobId)
        "Rocktick-Signature" sig
  | none => headerInsert (storedHeadersMap stored) "Rocktick-Job-Id" jobId

/-- C4 counterexample: a caller-supplied header named `Rocktick-Evil`
survives into the outgoing `JobSpec` unchanged — the dispatch loop never
strips the `Rocktick-` prefix; it only overwrites the two exact names
`Rocktick-Job-Id` and `Rocktick-Signature`. -/
theorem dispatch_keeps_other_rocktick_headers :
    dispatchHeaders ["Rocktick-Evil: x"] "j" none "Rocktick-Evil" = some "x" ∧
    "Rocktick-Evil".toList.take 9 = "Rocktick-".toList := by
  constructor
  · decide
  · decide

/-- C4 (amended): in every `JobSpec` streamed by the dispatch loop, the
header `Rocktick-Job-Id` carries the injected job id and, when a signature
was built, `Rocktick-Signature` carries it — overwriting caller-supplied
headers of those two exact names — while every other header name (including
other `Rocktick-`-prefixed names) keeps its stored value; the blanket
`Rocktick-` prefix stripping happens only when `record_execution` persists
the actual sent request. -/
theorem dispatch_header_injection (stored : List String) (jobId : String)
    (signature : Option String) :
    dispatchHeaders stored jobId signature "Rocktick-Job-Id" = some jobId ∧
    (∀ s, signature = some s →
      dispatchHeaders stored jobId signature "Rocktick-Signature" = some s) ∧
    (∀ k, k ≠ "Rocktick-Job-Id" → k ≠ "Rocktick-Signature" →
      dispatchHeaders stored jobId signature k = storedHeadersMap stored k) := by
  refine ⟨?_, ?_, ?_⟩
  · cases signature with
    | none => simp [dispatchHeaders, headerInsert]
    | some s => simp [dispatchHeaders, headerInsert]
  · intro s hs
    subst hs
    simp [dispatchHeaders, headerInsert]
  · intro k hk1 hk2
    cases signature with
    | none => simp [dispatchHeaders, headerInsert, hk1]
    | some s => simp [dispatchHeaders, headerInsert, hk1, hk2]

/-- Witness for C4 (amended) on a stored `Rocktick-Evil` header with a
signed request: the non-injected name keeps its stored value. -/
theorem dispatch_header_injection_witness :
    dispatchHeaders ["Rocktick-Evil: x"] "j" (some "sig") "Rocktick-Evil"
      = storedHeadersMap ["Rocktick-Evil: x"] "Rocktick-Evil" :=
  (dispatch_header_injection ["Rocktick-Evil: x"] "j" (some "sig")).2.2
    "Rocktick-Evil" (by decide) (by decide)

/-! ## Workflow driver (src/scheduler/workflow/, src/util/workflow.rs)

The workflow tables and the NoExecution and PendingExecution schedulers.
`serde_json::Value` payloads are modelled as their serialized text; a stored
`result_json` either deserializes to a `ReturnedData` (`parsed`) or not
(`unparsed`), modelling serde's untagged parse.  The `WorkflowContext`
rebuilt by both schedulers is computed in the source but written to the
store only on paths that return before `tx.commit()` (the `finalize_*`
paths of no_executions.rs) or not written at all (pending_execution.rs), so
it does not appear in the committed-state semantics below.  Times are in
seconds. -/

/-- A wait declaration (`WaitDefinition`): both the struct and the tuple
form reduce to the single `wait_until` accessor. -/
structure WaitDefinition where
  wait_until : Int
  deriving DecidableEq, Repr

/-- A child-workflow declaration (`ChildDefinition`): the tuple form is the
struct form with `max_retries = none`; the `max_retries()` accessor defaults
to 9. -/
structure ChildDefinition where
  url : String
  input : String
  max_retries : Option Int
  deriving DecidableEq, Repr

/-- `ReturnedData` from a workflow implementation, after serde parsing;
the `new_*` accessors default missing fields to empty maps (here assoc
lists). -/
structure ReturnedData where
  new_steps : Option (List (String × String))
  new_children : Option (List (String × ChildDefinition))
  new_waits : Option (List (String × WaitDefinition))
  result : Option String
  error : Option String
  deriving DecidableEq, Repr

/-- A stored `result_json` value: either it deserializes to `ReturnedData`
or it is some other JSON. -/
inductive ResultJson where
  | parsed (d : ReturnedData)
  | unparsed (raw : String)
  deriving DecidableEq, Repr

/-- `serde_json::from_value::<ReturnedData>`. -/
def parseReturned : ResultJson → Option ReturnedData
  | .parsed d => some d
  | .unparsed _ => none

/-- A `workflows` row (the `context` column is written only on rolled-back
paths of the embedded schedulers and is omitted). -/
structure Workflow where
  id : String
  region : String
  tenant_id : Option String
  implementation_url : String
  input : String
  status : String
  max_retries : Int
  result : Option String
  error : Option String
  deriving DecidableEq, Repr

/-- A `workflow_executions` row (`DbExecution`). -/
structure WorkflowExecution where
  id : String
  region : String
  workflow_id : String
  execution_index : Int
  tenant_id : Option String
  status : String
  is_retry : Bool
  executed_at : Option Int
  result_json : Option ResultJson
  failure_reason : Option String
  deriving DecidableEq, Repr

/-- A `workflow_dependencies` row (`DbDependency`). -/
structure WorkflowDependency where
  id : String
  workflow_execution_id : String
  child_workflow_name : Option String
  child_workflow_id : Option String
  wait_name : Option String
  wait_until : Option Int
  deriving DecidableEq, Repr

/-- The store state the workflow schedulers operate on. -/
structure WorkflowStore where
  workflows : List Workflow
  executions : List WorkflowExecution
  dependencies : List WorkflowDependency
  deriving DecidableEq, Repr

/-- The NoExecution candidate filter: no execution of the workflow has a
status outside `{completed, failed}`. -/
def noExecutionsFilter (st : WorkflowStore) (w : Workflow) : Prop :=
  ¬ ∃ e ∈ st.executions, e.workflow_id = w.id ∧
      e.status ≠ "completed" ∧ e.status ≠ "failed"

instance (st : WorkflowStore) (w : Workflow) : Decidable (noExecutionsFilter st w) := by
  unfold noExecutionsFilter; infer_instance

/-- `ORDER BY execution_index ASC`. -/
def execOrder (a b : WorkflowExecution) : Bool :=
  decide (a.execution_index ≤ b.execution_index)

/-- The workflow's executions in index order. -/
def wfExecsOf (st : WorkflowStore) (wid : String) : List WorkflowExecution :=
  sortByKey execOrder (st.executions.filter (fun e => e.workflow_id = wid))

/-- `ORDER BY dep.id ASC`. -/
def depOrder (a b : WorkflowDependency) : Bool := decide (a.id ≤ b.id)

/-- The workflow's dependencies (joined through their owning execution), in
id order. -/
def wfDepsOf (st : WorkflowStore) (wid : String) : List WorkflowDependency :=
  sortByKey depOrder (st.dependencies.filter (fun d =>
    decide (∃ e ∈ st.executions, e.id = d.workflow_execution_id ∧ e.workflow_id = wid)))

/-- The dependency names declared by the executions' parsed results: the
keys of `new_children` and `new_waits` of every execution whose
`result_json` deserializes (the `new_dependencies` HashSet before the
removal loop, as the list of inserted names). -/
def declaredDepNames (execs : List WorkflowExecution) : List String :=
  execs.flatMap (fun e =>
    match e.result_json.bind parseReturned with
    | some d => (d.new_children.getD []).map (fun kv => kv.1) ++
        (d.new_waits.getD []).map (fun kv => kv.1)
    | none => [])

/-- The names removed from `new_dependencies` by the removal loop of
no_executions.rs: each dependency removes both its `wait_name` and its
`child_workflow_name` when present. -/
def existingDepNames (deps : List WorkflowDependency) : List String :=
  deps.flatMap (fun d => d.wait_name.toList ++ d.child_workflow_name.toList)

/-- Emptiness of the `new_dependencies` HashSet after the removal loop:
every declared name was removed by some dependency. -/
def noNewDependencies (execs : List WorkflowExecution) (deps : List WorkflowDependency) :
    Bool :=
  (declaredDepNames execs).all (fun n => (existingDepNames deps).contains n)

/-- The row inserted by `create_workflow_execution`: fresh id, the given
index, `status = 'pending'`. -/
def createExecutionRow (newId region wid : String) (index : Int)
    (tenant : Option String) (is_retry : Bool) : WorkflowExecution :=
  { id := newId, region := region, workflow_id := wid, execution_index := index
    tenant_id := tenant, status := "pending", is_retry := is_retry
    executed_at := none, result_json := none, failure_reason := none }

/-- The committed effect of one `NoExecutionScheduler::run_once`
(no_executions.rs).  Only the final fall-through path reaches `tx.commit()`
(line 194); every other path — including the `executions.is_empty()` branch
that inserts execution #0 (lines 53-67), both `finalize_workflow_*` branches
and the failure-retry branch — does `return Ok(())` with the transaction
still open, so sqlx rolls it back on drop and the committed store is
unchanged. -/
def noExecutionsRunOnce (st : WorkflowStore) (newId : String) : WorkflowStore :=
  match st.workflows.find? (fun w => decide (noExecutionsFilter st w)) with
  | none => st
  | some w =>
      match (wfExecsOf st w.id).getLast? with
      | none => st
      | some latest =>
          if latest.result_json.isSome then st
          else if latest.failure_reason.isSome then st
          else
            let execs := wfExecsOf st w.id
            let is_retry := noNewDependencies execs (wfDepsOf st w.id)
            let retry_count := (execs.filter (fun e => e.is_retry)).length
            if is_retry ∧ (retry_count : Int) = w.max_retries then st
            else
              { st with executions := st.executions ++
                  [createExecutionRow newId w.region w.id (latest.execution_index + 1)
                    w.tenant_id is_retry] }

/-- The C1 failing input: one workflow with zero workflow_executions rows. -/
def c1Store : WorkflowStore :=
  { workflows := [{ id := "w1", region := "us", tenant_id := none
                    implementation_url := "https://x.test/wf", input := "{}"
                    status := "pending", max_retries := 3
                    result := none, error := none }]
    executions := []
    dependencies := [] }

/-- C1: on a workflow with zero executions, one run of the NoExecution
driver commits nothing — the branch for `executions.is_empty()` inserts
execution #0 with status `pending` but returns before `tx.commit()`, so the
insert is rolled back and the committed store still has no execution row for
the workflow (and the same workflow is picked again forever). -/
theorem no_executions_first_execution_not_committed :
    noExecutionsRunOnce c1Store "e0" = c1Store ∧
    (noExecutionsRunOnce c1Store "e0").executions = [] ∧
    c1Store.workflows.find? (fun w => decide (noExecutionsFilter c1Store w))
      = some { id := "w1", region := "us", tenant_id := none
               implementation_url := "https://x.test/wf", input := "{}"
               status := "pending", max_retries := 3
               result := none, error := none } := by
  refine ⟨?_, ?_, ?_⟩ <;> decide

/-! ### PendingExecution scheduler (pending_execution.rs)

Materializes the dependencies declared by the one pending execution's
workflow.  The two `HashMap`s collected from the parsed results are modelled
as association lists with insert-overwrite semantics (iteration order of a
`HashMap` is arbitrary; the inserted row set is order-independent). -/

/-- `HashMap::insert` on an association list: overwrite an existing key in
place, else append. -/
def ainsert (m : List (String × α)) (k : String) (v : α) : List (String × α) :=
  if m.any (fun p => p.1 = k) then m.map (fun p => if p.1 = k then (k, v) else p)
  else m ++ [(k, v)]

/-- `HashMap::remove` on an association list. -/
def aremove (m : List (String × α)) (k : String) : List (String × α) :=
  m.filter (fun p => ¬ p.1 = k)

/-- The PendingExecution candidate filter: some execution of the workflow is
`pending` and none has a status outside `{pending, completed, failed}`. -/
def pendingFilter (st : WorkflowStore) (w : Workflow) : Prop :=
  (∃ e ∈ st.executions, e.workflow_id = w.id ∧ e.status = "pending") ∧
  ¬ ∃ e ∈ st.executions, e.workflow_id = w.id ∧
      e.status ≠ "pending" ∧ e.status ≠ "completed" ∧ e.status ≠ "failed"

instance (st : WorkflowStore) (w : Workflow) : Decidable (pendingFilter st w) := by
  unfold pendingFilter; infer_instance

/-- The parsed `ReturnedData` of the workflow's executions, in index order
(results that fail to deserialize are skipped). -/
def executionResults (st : WorkflowStore) (wid : String) : List ReturnedData :=
  (wfExecsOf st wid).filterMap (fun e => e.result_json.bind parseReturned)

/-- The `child_workflows` map after collecting every result's
`new_children` (later declarations overwrite earlier ones). -/
def collectedChildren (st : WorkflowStore) (wid : String) :
    List (String × ChildDefinition) :=
  (executionResults st wid).foldl
    (fun m r => (r.new_children.getD []).foldl (fun m kv => ainsert m kv.1 kv.2) m) []

/-- The `waits` map after collecting every result's `new_waits`. -/
def collectedWaits (st : WorkflowStore) (wid : String) :
    List (String × WaitDefinition) :=
  (executionResults st wid).foldl
    (fun m r => (r.new_waits.getD []).foldl (fun m kv => ainsert m kv.1 kv.2) m) []

/-- The removal loop over the workflow's dependencies: a dependency's
`child_workflow_name` is removed from the `child_workflows` map (and only
from it). -/
def remainingChildren (st : WorkflowStore) (wid : String) :
    List (String × ChildDefinition) :=
  (wfDepsOf st wid).foldl
    (fun m d => match d.child_workflow_name with
      | some n => aremove m n
      | none => m)
    (collectedChildren st wid)

/-- The removal loop for waits: a dependency's `wait_name` is removed from
the `waits` map (and only from it). -/
def remainingWaits (st : WorkflowStore) (wid : String) :
    List (String × WaitDefinition) :=
  (wfDepsOf st wid).foldl
    (fun m d => match d.wait_name with
      | some n => aremove m n
      | none => m)
    (collectedWaits st wid)

/-- The child `workflows` row inserted for a remaining declared child. -/
def childWorkflowRow (w : Workflow) (childWfId : String → String)
    (kv : String × ChildDefinition) : Workflow :=
  { id := childWfId kv.1, region := w.region, tenant_id := w.tenant_id
    implementation_url := kv.2.url, input := kv.2.input, status := "pending"
    max_retries := kv.2.max_retries.getD 9, result := none, error := none }

/-- The `workflow_dependencies` row linking the pending execution to a
freshly inserted child workflow. -/
def childDependencyRow (pendingId : String) (childWfId childDepId : String → String)
    (kv : String × ChildDefinition) : WorkflowDependency :=
  { id := childDepId kv.1, workflow_execution_id := pendingId
    child_workflow_name := some kv.1, child_workflow_id := some (childWfId kv.1)
    wait_name := none, wait_until := none }

/-- The `workflow_dependencies` row inserted for a remaining declared wait. -/
def waitDependencyRow (pendingId : String) (waitDepId : String → String)
    (kv : String × WaitDefinition) : WorkflowDependency :=
  { id := waitDepId kv.1, workflow_execution_id := pendingId
    child_workflow_name := none, child_workflow_id := none
    wait_name := some kv.1, wait_until := some kv.2.wait_until }

/-- The committed effect of one `PendingExecutionScheduler::run_once`
(pending_execution.rs): pick a workflow with exactly the pending state,
insert one child workflow + dependency per remaining declared child and one
dependency per remaining declared wait, and set the pending execution to
`waiting`.  `childWfId`, `childDepId` and `waitDepId` model `id::generate`
per declared name.  (The `WorkflowContext` is computed in the source but
never written, and is omitted.) -/
def pendingRunOnce (st : WorkflowStore) (childWfId childDepId waitDepId : String → String) :
    WorkflowStore :=
  match st.workflows.find? (fun w => decide (pendingFilter st w)) with
  | none => st
  | some w =>
      match st.executions.find? (fun e =>
          decide (e.status = "pending" ∧ e.workflow_id = w.id)) with
      | none => st
      | some pending =>
          { st with
            workflows := st.workflows ++
              (remainingChildren st w.id).map (childWorkflowRow w childWfId)
            dependencies := st.dependencies ++
              (remainingChildren st w.id).map
                (childDependencyRow pending.id childWfId childDepId) ++
              (remainingWaits st w.id).map (waitDependencyRow pending.id waitDepId)
            executions := st.executions.map (fun e =>
              if e.id = pending.id then { e with status := "waiting" } else e) }

/-- The C10 counterexample store: workflow `w` whose completed execution
`e0` declared a child named `x`, whose execution `e1` is pending, and which
already has a WAIT dependency named `x` (owned by `e0`). -/
def c10Store : WorkflowStore :=
  { workflows := [{ id := "w", region := "us", tenant_id := none
                    implementation_url := "https://x.test/wf", input := "{}"
                    status := "pending", max_retries := 3
                    result := none, error := none }]
    executions :=
      [{ id := "e0", region := "us", workflow_id := "w", execution_index := 0
         tenant_id := none, status := "completed", is_retry := false
         executed_at := some 1
         result_json := some (.parsed
           { new_steps := none
             new_children := some [("x", { url := "https://x.test/child"
                                           input := "{}", max_retries := none })]
             new_waits := none, result := none, error := none })
         failure_reason := none },
       { id := "e1", region := "us", workflow_id := "w", execution_index := 1
         tenant_id := none, status := "pending", is_retry := false
         executed_at := none, result_json := none, failure_reason := none }]
    dependencies := [{ id := "d0", workflow_execution_id := "e0"
                       child_workflow_name := none, child_workflow_id := none
                       wait_name := some "x", wait_until := some 5 }] }

/-- Concrete id generators for the C10 counterexample. -/
def c10ChildWfId : String → String := fun n => "cw-" ++ n

/-- Concrete dependency-id generator for the C10 counterexample. -/
def c10ChildDepId : String → String := fun n => "cd-" ++ n

/-- Concrete wait-dependency-id generator for the C10 counterexample. -/
def c10WaitDepId : String → String := fun n => "wd-" ++ n

/-- C10 counterexample: the dedupe is per kind, not per name.  In `c10Store`
the name `x` already appears as a dependency of the workflow (a wait), yet
one run of the PendingExecution driver still inserts a child dependency
named `x` (and spawns the child workflow), so the workflow now has two
dependency rows named `x`. -/
theorem pending_dedupe_cross_kind_counterexample :
    (pendingRunOnce c10Store c10ChildWfId c10ChildDepId c10WaitDepId).dependencies
      = [{ id := "d0", workflow_execution_id := "e0"
           child_workflow_name := none, child_workflow_id := none
           wait_name := some "x", wait_until := some 5 },
         { id := "cd-x", workflow_execution_id := "e1"
           child_workflow_name := some "x", child_workflow_id := some "cw-x"
           wait_name := none, wait_until := none }] ∧
    (pendingRunOnce c10Store c10ChildWfId c10ChildDepId c10WaitDepId).workflows.length
      = 2 := by
  constructor
  · decide
  · decide

theorem mem_aremove {α : Type} (m : List (String × α)) (n : String)
    (kv : String × α) (h : kv ∈ aremove m n) : kv ∈ m ∧ kv.1 ≠ n := by
  unfold aremove at h
  have hh := List.mem_filter.mp h
  refine ⟨hh.1, ?_⟩
  simpa using hh.2

theorem mem_foldl_remove {α : Type} (sel : WorkflowDependency → Option String) :
    ∀ (deps : List WorkflowDependency) (m0 : List (String × α)) (kv : String × α),
      kv ∈ deps.foldl (fun m d => match sel d with
        | some n => aremove m n
        | none => m) m0 →
      kv ∈ m0 ∧ ∀ d ∈ deps, sel d ≠ some kv.1 := by
  intro deps
  induction deps with
  | nil =>
      intro m0 kv h
      exact ⟨h, by simp⟩
  | cons d rest ih =>
      intro m0 kv h
      rw [List.foldl_cons] at h
      rcases hsel : sel d with _ | n <;> rw [hsel] at h
      · rcases ih _ kv h with ⟨h1, h2⟩
        refine ⟨h1, ?_⟩
        intro d' hd'
        rcases List.mem_cons.mp hd' with rfl | hd'
        · rw [hsel]; simp
        · exact h2 d' hd'
      · rcases ih _ kv h with ⟨h1, h2⟩
        rcases mem_aremove _ _ _ h1 with ⟨h1', hne⟩
        refine ⟨h1', ?_⟩
        intro d' hd'
        rcases List.mem_cons.mp hd' with rfl | hd'
        · rw [hsel]
          intro heq
          injection heq with heq'
          exact hne heq'.symm
        · exact h2 d' hd'

theorem ainsert_keys_nodup {α : Type} (m : List (String × α)) (k : String) (v : α)
    (h : (m.map Prod.fst).Nodup) : ((ainsert m k v).map Prod.fst).Nodup := by
  unfold ainsert
  by_cases hany : m.any (fun p => p.1 = k)
  · rw [if_pos hany]
    have heq : (m.map (fun p => if p.1 = k then (k, v) else p)).map Prod.fst
        = m.map Prod.fst := by
      rw [List.map_map]
      apply List.map_congr_left
      intro p _
      by_cases hp : p.1 = k
      · simp [hp]
      · simp [hp]
    rw [heq]
    exact h
  · rw [if_neg hany]
    rw [List.map_append]
    rw [List.nodup_append]
    refine ⟨h, by simp, ?_⟩
    intro a ha hb
    simp only [List.map_cons, List.map_nil, List.mem_singleton] at hb
    subst hb
    rcases List.mem_map.mp ha with ⟨p, hp, hpk⟩
    exact hany (List.any_eq_true.mpr ⟨p, hp, by simp [hpk]⟩)

theorem foldl_ainsert_keys_nodup {α : Type} (l : List (String × α)) :
    ∀ m : List (String × α), (m.map Prod.fst).Nodup →
      ((l.foldl (fun m kv => ainsert m kv.1 kv.2) m).map Prod.fst).Nodup := by
  induction l with
  | nil => exact fun m h => h
  | cons kv rest ih =>
      intro m h
      rw [List.foldl_cons]
      exact ih _ (ainsert_keys_nodup _ _ _ h)

theorem foldl_results_keys_nodup {α : Type} (get : ReturnedData → List (String × α))
    (rs : List ReturnedData) :
    ∀ m : List (String × α), (m.map Prod.fst).Nodup →
      ((rs.foldl (fun m r => (get r).foldl (fun m kv => ainsert m kv.1 kv.2) m)
        m).map Prod.fst).Nodup := by
  induction rs with
  | nil => exact fun m h => h
  | cons r rest ih =>
      intro m h
      rw [List.foldl_cons]
      exact ih _ (foldl_ainsert_keys_nodup _ _ h)

theorem aremove_keys_nodup {α : Type} (m : List (String × α)) (n : String)
    (h : (m.map Prod.fst).Nodup) : ((aremove m n).map Prod.fst).Nodup := by
  unfold aremove
  exact h.sublist ((List.filter_sublist m).map Prod.fst)

theorem foldl_remove_keys_nodup {α : Type} (sel : WorkflowDependency → Option String) :
    ∀ (deps : List WorkflowDependency) (m0 : List (String × α)),
      (m0.map Prod.fst).Nodup →
      (((deps.foldl (fun m d => match sel d with
        | some n => aremove m n
        | none => m) m0)).map Prod.fst).Nodup := by
  intro deps
  induction deps with
  | nil => exact fun m0 h => h
  | cons d rest ih =>
      intro m0 h
      rw [List.foldl_cons]
      rcases hsel : sel d with _ | n
      · exact ih _ h
      · exact ih _ (aremove_keys_nodup _ _ h)

theorem remainingChildren_keys_nodup (st : WorkflowStore) (wid : String) :
    ((remainingChildren st wid).map Prod.fst).Nodup :=
  foldl_remove_keys_nodup (fun d => d.child_workflow_name) (wfDepsOf st wid) _
    (foldl_results_keys_nodup (fun r => r.new_children.getD [])
      (executionResults st wid) [] (by simp))

theorem remainingWaits_keys_nodup (st : WorkflowStore) (wid : String) :
    ((remainingWaits st wid).map Prod.fst).Nodup :=
  foldl_remove_keys_nodup (fun d => d.wait_name) (wfDepsOf st wid) _
    (foldl_results_keys_nodup (fun r => r.new_waits.getD [])
      (executionResults st wid) [] (by simp))

theorem childDeps_filterMap_child (pid : String) (cw cd : String → String)
    (l : List (String × ChildDefinition)) :
    (l.map (childDependencyRow pid cw cd)).filterMap (fun d => d.child_workflow_name)
      = l.map Prod.fst := by
  induction l with
  | nil => rfl
  | cons kv rest ih => exact congrArg (List.cons kv.1) ih

theorem childDeps_filterMap_wait (pid : String) (cw cd : String → String)
    (l : List (String × ChildDefinition)) :
    (l.map (childDependencyRow pid cw cd)).filterMap (fun d => d.wait_name) = [] := by
  induction l with
  | nil => rfl
  | cons kv rest ih => exact ih

theorem waitDeps_filterMap_wait (pid : String) (wd : String → String)
    (l : List (String × WaitDefinition)) :
    (l.map (waitDependencyRow pid wd)).filterMap (fun d => d.wait_name)
      = l.map Prod.fst := by
  induction l with
  | nil => rfl
  | cons kv rest ih => exact congrArg (List.cons kv.1) ih

theorem waitDeps_filterMap_child (pid : String) (wd : String → String)
    (l : List (String × WaitDefinition)) :
    (l.map (waitDependencyRow pid wd)).filterMap (fun d => d.child_workflow_name)
      = [] := by
  induction l with
  | nil => rfl
  | cons kv rest ih => exact ih

/-- C10 (amended): the PendingExecution driver's duplicate suppression is
per dependency KIND: a declared child name is skipped iff some dependency
row of the workflow already has that `child_workflow_name`, and a declared
wait name iff some dependency row already has that `wait_name`; within one
run each kind inserts at most one row per name.  Hence a retried execution
re-declaring the same names spawns no duplicate child workflows or waits of
the same kind — but a name may appear once as a child and once as a wait. -/
theorem pending_dependency_dedupe_per_kind
    (st : WorkflowStore) (childWfId childDepId waitDepId : String → String)
    (w : Workflow) (pending : WorkflowExecution)
    (hw : st.workflows.find? (fun w => decide (pendingFilter st w)) = some w)
    (hp : st.executions.find? (fun e =>
        decide (e.status = "pending" ∧ e.workflow_id = w.id)) = some pending) :
    (∀ d ∈ ((pendingRunOnce st childWfId childDepId waitDepId).dependencies).drop
        st.dependencies.length,
      (∀ n, d.child_workflow_name = some n →
        ∀ d0 ∈ wfDepsOf st w.id, d0.child_workflow_name ≠ some n) ∧
      (∀ n, d.wait_name = some n →
        ∀ d0 ∈ wfDepsOf st w.id, d0.wait_name ≠ some n)) ∧
    ((((pendingRunOnce st childWfId childDepId waitDepId).dependencies).drop
        st.dependencies.length).filterMap (fun d => d.child_workflow_name)).Nodup ∧
    ((((pendingRunOnce st childWfId childDepId waitDepId).dependencies).drop
        st.dependencies.length).filterMap (fun d => d.wait_name)).Nodup := by
  have hdeps : (pendingRunOnce st childWfId childDepId waitDepId).dependencies
      = st.dependencies ++
        ((remainingChildren st w.id).map
          (childDependencyRow pending.id childWfId childDepId) ++
         (remainingWaits st w.id).map (waitDependencyRow pending.id waitDepId)) := by
    unfold pendingRunOnce
    rw [hw]
    dsimp only
    rw [hp]
    dsimp only
    rw [List.append_assoc]
  have hdrop : ((pendingRunOnce st childWfId childDepId waitDepId).dependencies).drop
      st.dependencies.length
      = (remainingChildren st w.id).map
          (childDependencyRow pending.id childWfId childDepId) ++
        (remainingWaits st w.id).map (waitDependencyRow pending.id waitDepId) := by
    rw [hdeps, List.drop_left]
  refine ⟨?_, ?_, ?_⟩
  · intro d hd
    rw [hdrop] at hd
    rcases List.mem_append.mp hd with hA | hB
    · rcases List.mem_map.mp hA with ⟨kv, hkv, rfl⟩
      constructor
      · intro n hn d0 hd0
        have hn' : n = kv.1 := by
          simpa [childDependencyRow] using hn.symm
        subst hn'
        have hrem := mem_foldl_remove (fun d => d.child_workflow_name)
          (wfDepsOf st w.id) (collectedChildren st w.id) kv hkv
        exact hrem.2 d0 hd0
      · intro n hn
        exact Option.noConfusion hn
    · rcases List.mem_map.mp hB with ⟨kv, hkv, rfl⟩
      constructor
      · intro n hn
        exact Option.noConfusion hn
      · intro n hn d0 hd0
        have hn' : n = kv.1 := by
          simpa [waitDependencyRow] using hn.symm
        subst hn'
        have hrem := mem_foldl_remove (fun d => d.wait_name)
          (wfDepsOf st w.id) (collectedWaits st w.id) kv hkv
        exact hrem.2 d0 hd0
  · rw [hdrop, List.filterMap_append]
    rw [childDeps_filterMap_child, waitDeps_filterMap_child, List.append_nil]
    exact remainingChildren_keys_nodup st w.id
  · rw [hdrop, List.filterMap_append]
    rw [childDeps_filterMap_wait, waitDeps_filterMap_wait, List.nil_append]
    exact remainingWaits_keys_nodup st w.id

/-- Witness for C10 (amended) at `c10Store`: the driver inserts a child
dependency only for the name `x`, which no dependency row of the workflow
carries as a `child_workflow_name`. -/
theorem pending_dependency_dedupe_per_kind_witness :
    ((((pendingRunOnce c10Store c10ChildWfId c10ChildDepId c10WaitDepId).dependencies).drop
        c10Store.dependencies.length).filterMap (fun d => d.child_workflow_name)).Nodup :=
  (pending_dependency_dedupe_per_kind c10Store c10ChildWfId c10ChildDepId c10WaitDepId
    { id := "w", region := "us", tenant_id := none
      implementation_url := "https://x.test/wf", input := "{}"
      status := "pending", max_retries := 3, result := none, error := none }
    { id := "e1", region := "us", workflow_id := "w", execution_index := 1
      tenant_id := none, status := "pending", is_retry := false
      executed_at := none, result_json := none, failure_reason := none }
    (by decide) (by decide)).2.1

end Rocktick
